import Mathlib

/-!
Shallow embedding of the Glassdoor scraper core: the normalizer
`process_job`, the pagination loop of `search_jobs`, the assembler
`scrape_glassdoor_api` (all from src/glassdoor_scraper_api.py) and the way
src/app.py surfaces the finished harvest.

Python values are modeled by `PyVal`; a Python exception escaping a block
is `Except.error`.  Calendar dates are modeled as integers (index of the
day), with `today` passed explicitly where the source calls
`datetime.now()`; the source's "%Y-%m-%d" rendering is an order
isomorphism on this range.  Network interaction is an oracle mapping the
page number of each request to the upstream response.
-/

namespace Glassdoor

/-- Model of a Python value (the JSON-ish data this code manipulates).
Numbers are modeled as integers. -/
inductive PyVal where
  | none
  | bool (b : Bool)
  | int (n : Int)
  | str (s : String)
  | list (elems : List PyVal)
  | dict (entries : List (String × PyVal))

/-- The kinds of Python exception the modeled operations raise. -/
inductive PyErr where
  | typeError
  | keyError
  | indexError
  | valueError
  | attributeError
deriving DecidableEq

/-- First value stored under a key of a modeled dict. -/
def PyVal.lookupKey : List (String × PyVal) → String → Option PyVal
  | [], _ => Option.none
  | (k, v) :: rest, key => if k = key then some v else PyVal.lookupKey rest key

/-- Python truthiness, as used in the source's `if not x` tests. -/
def truthy : PyVal → Bool
  | .none => false
  | .bool b => b
  | .int n => if n = 0 then false else true
  | .str s => if s = "" then false else true
  | .list es => match es with
    | [] => false
    | _ => true
  | .dict es => match es with
    | [] => false
    | _ => true

/-- Python `==`.  Every comparison in the modeled code has a scalar
literal on one side, so only scalar equality (with the bool/int
crossover, True == 1) needs to hold; a container never equals a
scalar, which the catch-all case also renders faithfully. -/
def pyEq (a b : PyVal) : Bool :=
  match a, b with
  | .none, .none => true
  | .bool x, .bool y => x == y
  | .bool x, .int n => (if x then (1 : Int) else 0) == n
  | .int n, .bool x => n == (if x then (1 : Int) else 0)
  | .int x, .int y => x == y
  | .str x, .str y => x == y
  | _, _ => false

/-- Python str.split with a non-empty separator: non-overlapping
occurrences scanned left to right, empty pieces kept (line 361 of the
source uses separator ", ").  The explicit fuel keeps the recursion
structural; `pySplit` supplies fuel = length of the string, which the
recursion never exhausts since each step consumes at least one
character. -/
def pySplitCharsAux (sep : List Char) : Nat → List Char → List (List Char)
  | _, [] => [[]]
  | 0, l => [l]
  | fuel + 1, c :: rest =>
    if sep.isPrefixOf (c :: rest) then
      [] :: pySplitCharsAux sep fuel ((c :: rest).drop sep.length)
    else
      match pySplitCharsAux sep fuel rest with
      | [] => [[c]]
      | h :: t => (c :: h) :: t

/-- Python s.split(sep) for a non-empty sep (the only form the source
uses). -/
def pySplit (s sep : String) : List String :=
  match sep.toList with
  | [] => [s]
  | l => (pySplitCharsAux l s.toList.length s.toList).map (fun cs => String.mk cs)

/-- Python `key in s` on strings: substring containment. -/
def strContains (s key : String) : Bool :=
  if key = "" then true
  else match pySplit s key with
    | [] => false
    | [_] => false
    | _ => true

/-- Python str() as the source's f-strings apply it (lines 339 and 376).
Faithful on scalars, which are the values interpolated in practice;
container rendering is abbreviated and no modeled claim depends on it. -/
def pystr : PyVal → String
  | .none => "None"
  | .bool b => if b then "True" else "False"
  | .int n => toString n
  | .str s => s
  | .list _ => "[...]"
  | .dict _ => "\x7b...\x7d"

/-- Python `key in v` (source lines 321, 326): key membership for dicts,
substring test for strings, element membership for lists; `in` on other
values raises TypeError. -/
def pyContains (v : PyVal) (key : String) : Except PyErr Bool :=
  match v with
  | .dict es => Except.ok (PyVal.lookupKey es key).isSome
  | .str s => Except.ok (strContains s key)
  | .list es => Except.ok (es.any (fun e => pyEq e (.str key)))
  | _ => Except.error .typeError

/-- Python `v[key]` with a string key: dict lookup raising KeyError when
the key is absent; on any other value the subscript raises (string and
list indices must be integers). -/
def pyGetItem (v : PyVal) (key : String) : Except PyErr PyVal :=
  match v with
  | .dict es =>
    match PyVal.lookupKey es key with
    | some x => Except.ok x
    | Option.none => Except.error .keyError
  | _ => Except.error .typeError

/-- Python `v.get(key, default)`: only dicts have `.get`; other values
raise AttributeError. -/
def pyGet (v : PyVal) (key : String) (dflt : PyVal) : Except PyErr PyVal :=
  match v with
  | .dict es => Except.ok ((PyVal.lookupKey es key).getD dflt)
  | _ => Except.error .attributeError

/-- Python `v[0]` (source lines 197, 271, 275).  Modeled dict keys are
strings, so subscripting a dict with 0 raises KeyError. -/
def pyIndex0 (v : PyVal) : Except PyErr PyVal :=
  match v with
  | .list es =>
    match es with
    | [] => Except.error .indexError
    | e :: _ => Except.ok e
  | .str s =>
    match s.toList with
    | [] => Except.error .indexError
    | c :: _ => Except.ok (.str (String.mk [c]))
  | .dict _ => Except.error .keyError
  | _ => Except.error .typeError

/-- Python iteration (`for x in v`): lists yield their elements, strings
their 1-character substrings, dicts their keys; other values raise
TypeError. -/
def pyIter (v : PyVal) : Except PyErr (List PyVal) :=
  match v with
  | .list es => Except.ok es
  | .str s => Except.ok (s.toList.map (fun c => .str (String.mk [c])))
  | .dict es => Except.ok (es.map (fun kv => .str kv.1))
  | _ => Except.error .typeError

/-- Digits of a decimal numeral, most significant first. -/
def digitsValAux : List Char → Nat → Option Nat
  | [], acc => some acc
  | c :: rest, acc =>
    if c.isDigit then digitsValAux rest (acc * 10 + (c.toNat - 48))
    else Option.none

/-- Decimal integer literal with optional sign (the lexical form Python's
int() accepts, minus whitespace/underscore trivia the scraped data never
contains). -/
def parseIntStr (s : String) : Option Int :=
  match s.toList with
  | [] => Option.none
  | '-' :: rest =>
    match rest with
    | [] => Option.none
    | _ => (digitsValAux rest 0).map (fun n => -(n : Int))
  | '+' :: rest =>
    match rest with
    | [] => Option.none
    | _ => (digitsValAux rest 0).map (fun n => (n : Int))
  | l => (digitsValAux l 0).map (fun n => (n : Int))

/-- Python int(v), as applied at source lines 369-370. -/
def pyint (v : PyVal) : Except PyErr Int :=
  match v with
  | .int n => Except.ok n
  | .bool b => Except.ok (if b then 1 else 0)
  | .str s =>
    match parseIntStr s with
    | some n => Except.ok n
    | Option.none => Except.error .valueError
  | _ => Except.error .typeError

/-- timedelta(days=v), accepted for the numeric values `PyVal` models
(Python bools are ints); other values raise TypeError
(source line 356). -/
def pyDays (v : PyVal) : Except PyErr Int :=
  match v with
  | .int n => Except.ok n
  | .bool b => Except.ok (if b then 1 else 0)
  | _ => Except.error .typeError

/-- The flat record dict process_job returns (source lines 382-401). -/
structure JobRecord where
  id : String
  title : PyVal
  company : PyVal
  location : PyVal
  city : String
  state : String
  job_url : String
  company_url : Option String
  company_logo : PyVal
  salary_min : Option Int
  salary_max : Option Int
  currency : PyVal
  date_posted : Option Int
  source : String
  description : PyVal
  age_days : PyVal
  easy_apply : PyVal
  remote : Bool

/-- Source lines 321-331: block-presence checks and extraction of the
jobview, header and job blocks; `Except.ok Option.none` models the
explicit `return None` skips. -/
def extractBlocks (job_data : PyVal) : Except PyErr (Option (PyVal × PyVal × PyVal)) := do
  let hasJobview ← pyContains job_data "jobview"
  if !hasJobview then return Option.none
  let jobview ← pyGetItem job_data "jobview"
  let hasHeader ← pyContains jobview "header"
  let hasJob ← pyContains jobview "job"
  if !hasHeader || !hasJob then return Option.none
  let header ← pyGetItem jobview "header"
  let job_info ← pyGetItem jobview "job"
  return some (jobview, header, job_info)

/-- Source line 348: job_info["jobTitleText"] or header.get("jobTitleText", ""). -/
def titleOf (header job_info : PyVal) : Except PyErr PyVal := do
  let title0 ← pyGetItem job_info "jobTitleText"
  if truthy title0 then pure title0 else pyGet header "jobTitleText" (PyVal.str "")

/-- Source lines 354-356: datetime.now() - timedelta(days=age) when an
age value is present (Python None, the .get default, means absent). -/
def datePostedOf (today : Int) (age_in_days : PyVal) : Except PyErr (Option Int) :=
  match age_in_days with
  | PyVal.none => Except.ok Option.none
  | v => do
    let n ← pyDays v
    pure (some (today - n))

/-- Source lines 359-363: location parsing via location_name.split(", "). -/
def cityStateOf (location_name : PyVal) : Except PyErr (String × String) :=
  if truthy location_name && !(pyEq location_name (PyVal.str "Remote")) then
    match location_name with
    | PyVal.str s =>
      let parts := pySplit s ", "
      Except.ok (parts.headD "", (parts.drop 1).headD "")
    | _ => Except.error PyErr.attributeError
  else Except.ok ("", "")

/-- Source lines 366-371: the pay-percentile block. -/
def salariesOf (header : PyVal) : Except PyErr (Option Int × Option Int × PyVal) := do
  let pay_info ← pyGet header "payPeriodAdjustedPay" PyVal.none
  if truthy pay_info then
    let p10t ← pyGet pay_info "p10" PyVal.none
    let salary_min ← if truthy p10t then do
        let p10 ← pyGet pay_info "p10" (PyVal.int 0)
        let n ← pyint p10
        pure (some n)
      else pure (Option.none : Option Int)
    let p90t ← pyGet pay_info "p90" PyVal.none
    let salary_max ← if truthy p90t then do
        let p90 ← pyGet pay_info "p90" (PyVal.int 0)
        let n ← pyint p90
        pure (some n)
      else pure (Option.none : Option Int)
    let currency ← pyGet header "payCurrency" (PyVal.str "USD")
    pure (salary_min, salary_max, currency)
  else pure ((Option.none : Option Int), (Option.none : Option Int), PyVal.str "USD")

/-- Source lines 374-376: employer id and derived company url. -/
def companyUrlOf (header : PyVal) : Except PyErr (Option String) := do
  let employer ← pyGet header "employer" (PyVal.dict [])
  let company_id ← if truthy employer then pyGet employer "id" PyVal.none
    else pure PyVal.none
  pure (if truthy company_id then
      some ("https://www.glassdoor.com/Overview/W-EI_IE" ++ pystr company_id ++ ".htm")
    else (Option.none : Option String))

/-- Source lines 379-380: overview block and logo. -/
def logoOf (jobview : PyVal) : Except PyErr PyVal := do
  let overview ← pyGet jobview "overview" (PyVal.dict [])
  pyGet overview "squareLogoUrl" PyVal.none

/-- Transcription of GlassdoorAPIScraper.process_job (source lines
318-405) without its try/except wrapper: `Except.error` is a Python
exception escaping the body, `Except.ok Option.none` one of the explicit
`return None` skips.  The body is phrased through the stage functions
above, in the source's evaluation order. -/
def processJobE (today : Int) (job_data : PyVal) : Except PyErr (Option JobRecord) := do
  match ← extractBlocks job_data with
  | Option.none => return Option.none
  | some (jobview, header, job_info) => do
    let job_id ← pyGet job_info "listingId" PyVal.none
    if !(truthy job_id) then return Option.none
    let job_url := "https://www.glassdoor.com/job-listing/j?jl=" ++ pystr job_id
    let title ← titleOf header job_info
    let company_name ← pyGet header "employerNameFromSearch" (PyVal.str "")
    let location_name ← pyGet header "locationName" (PyVal.str "")
    let age_in_days ← pyGet header "ageInDays" PyVal.none
    let date_posted ← datePostedOf today age_in_days
    let cityState ← cityStateOf location_name
    let salaries ← salariesOf header
    let company_url ← companyUrlOf header
    let company_logo ← logoOf jobview
    let description ← pyGet job_info "description" (PyVal.str "")
    let easy_apply ← pyGet header "easyApply" (PyVal.bool false)
    let location_type ← pyGet header "locationType" PyVal.none
    return some
      { id := "glassdoor_" ++ pystr job_id
      , title := title
      , company := company_name
      , location := location_name
      , city := cityState.1
      , state := cityState.2
      , job_url := job_url
      , company_url := company_url
      , company_logo := company_logo
      , salary_min := salaries.1
      , salary_max := salaries.2.1
      , currency := salaries.2.2
      , date_posted := date_posted
      , source := "glassdoor"
      , description := description
      , age_days := age_in_days
      , easy_apply := easy_apply
      , remote := pyEq location_name (PyVal.str "Remote") || pyEq location_type (PyVal.str "S") }

/-- process_job with its try/except: any Python exception raised in the
body is caught and converted into a skip (source lines 403-405). -/
def processJob (today : Int) (job_data : PyVal) : Option JobRecord :=
  match processJobE today job_data with
  | Except.ok r => r
  | Except.error _ => Option.none

/-- One upstream response to the POST issued for a page (source lines
260-264): a transport error (requests raised), or an HTTP status code
with the JSON body (body `Option.none`: response.json() raised). -/
inductive PageResp where
  | netError
  | http (status : Nat) (body : Option PyVal)

/-- Effect of one iteration of the pagination loop, classified by how the
iteration left the loop.  `fault` covers a non-200 status, a missing or
malformed payload, and any exception in the try block, all of which the
source answers with `break` before extending the accumulator; the
outcomes that carry `jobs` extend the accumulator first. -/
inductive PageOutcome where
  | fault
  | endOfResults
  | cursorFault (jobs : List JobRecord)
  | lastPage (jobs : List JobRecord)
  | next (jobs : List JobRecord)

/-- The cursor scan at source lines 297-302: first entry whose pageNumber
equals page+1, else Python None. -/
def findCursor (page : Nat) : List PyVal → Except PyErr PyVal
  | [] => Except.ok PyVal.none
  | cd :: rest => do
    let pn ← pyGetItem cd "pageNumber"
    if pyEq pn (PyVal.int (Int.ofNat (page + 1))) then pyGetItem cd "cursor"
    else findCursor page rest

/-- The body of one loop iteration after a 200 response whose JSON
parsed (source lines 270-306).  Exceptions escaping this computation hit
the page-level except handler and break the loop with nothing added
(source lines 311-313); exceptions inside the cursor extraction, after
the accumulator was already extended, are folded into `cursorFault`. -/
def pageBody (today : Int) (page : Nat) (data : PyVal) : Except PyErr PageOutcome := do
  if !truthy data then return PageOutcome.fault
  let d0 ← pyIndex0 data
  let hasData ← pyContains d0 "data"
  if !hasData then return PageOutcome.fault
  let dd ← pyGetItem d0 "data"
  let jl ← pyGetItem dd "jobListings"
  let jobs_data ← pyGetItem jl "jobListings"
  if !truthy jobs_data then return PageOutcome.endOfResults
  let listings ← pyIter jobs_data
  let page_jobs := listings.filterMap (processJob today)
  match (do
      let pcs ← pyGet jl "paginationCursors" (PyVal.list [])
      let cds ← pyIter pcs
      findCursor page cds : Except PyErr PyVal) with
  | Except.error _ => return PageOutcome.cursorFault page_jobs
  | Except.ok cursor =>
    if !truthy cursor then return PageOutcome.lastPage page_jobs
    else return PageOutcome.next page_jobs

/-- One full iteration attempt: the HTTP-level checks of source lines
260-273 followed by `pageBody`; a transport error, a non-200 status, a
body that fails to parse, or an exception in the body all break the
loop as a fault. -/
def pageStep (today : Int) (page : Nat) (resp : PageResp) : PageOutcome :=
  match resp with
  | PageResp.netError => PageOutcome.fault
  | PageResp.http status body =>
    if status = 200 then
      match body with
      | Option.none => PageOutcome.fault
      | some data =>
        match pageBody today page data with
        | Except.error _ => PageOutcome.fault
        | Except.ok out => out
    else PageOutcome.fault

/-- Result of the pagination loop: the accumulated records, the trace of
POSTs actually issued — in order, (page number, number of records
already accumulated when the request went out) — and whether the loop
stopped on a fault (the spec's UpstreamRequestFailed) rather than a
natural end. -/
structure LoopOut where
  jobs : List JobRecord
  reqs : List (Nat × Nat)
  fault : Bool

/-- The pagination loop of search_jobs (source lines 237-313).  The fuel
argument counts the pages still allowed, i.e. max_pages + 1 - page, so
fuel = 0 is exactly the `page > max_pages` exit of the while condition;
the length check of the while condition is re-tested before every
request. -/
def loopAux (today : Int) (resp : Nat → PageResp) (maxResults : Nat) :
    Nat → Nat → List JobRecord → LoopOut
  | 0, _, acc => ⟨acc, [], false⟩
  | fuel + 1, page, acc =>
    if acc.length < maxResults then
      match pageStep today page (resp page) with
      | PageOutcome.fault => ⟨acc, [(page, acc.length)], true⟩
      | PageOutcome.endOfResults => ⟨acc, [(page, acc.length)], false⟩
      | PageOutcome.cursorFault jobs => ⟨acc ++ jobs, [(page, acc.length)], true⟩
      | PageOutcome.lastPage jobs => ⟨acc ++ jobs, [(page, acc.length)], false⟩
      | PageOutcome.next jobs =>
        let rest := loopAux today resp maxResults fuel (page + 1) (acc ++ jobs)
        ⟨rest.jobs, (page, acc.length) :: rest.reqs, rest.fault⟩
    else ⟨acc, [], false⟩

/-- What search_jobs hands back, together with the request trace and the
fault flag of the loop (observables the source only prints). -/
structure SearchOut where
  jobs : List JobRecord
  reqs : List (Nat × Nat)
  fault : Bool

/-- search_jobs (source lines 216-316): run the pagination loop from
page 1 with max_pages = min(30, max_results // 30 + 2) and return
all_jobs[:max_results].  The location lookup of line 227 talks to a
different endpoint (modeled by `get_location_id`) and issues no page
request; its `if not location_id` early return (lines 228-230), possible
only when the suggestion payload carries locationId 0, returns the empty
list without any page request and is not modeled here. -/
def search_jobs (today : Int) (resp : Nat → PageResp) (max_results : Nat) : SearchOut :=
  let max_pages := min 30 (max_results / 30 + 2)
  let out := loopAux today resp max_results max_pages 1 []
  ⟨out.jobs.take max_results, out.reqs, out.fault⟩

/-- df.drop_duplicates(subset=['job_url'], keep='first') (source line
425): keep each record whose job_url was not seen earlier. -/
def dropDupByUrl : List JobRecord → List String → List JobRecord
  | [], _ => []
  | r :: rs, seen =>
    if r.job_url ∈ seen then dropDupByUrl rs seen
    else r :: dropDupByUrl rs (r.job_url :: seen)

/-- Order of df.sort_values('date_posted', ascending=False) (source line
427): later dates first, missing dates (None/NaN, na_position 'last')
after every present date.  `dateKeyLE a b` says a may come before b. -/
def dateKeyLE : Option Int → Option Int → Bool
  | Option.none, Option.none => true
  | Option.none, some _ => false
  | some _, Option.none => true
  | some a, some b => b ≤ a

def dateLE (r s : JobRecord) : Bool := dateKeyLE r.date_posted s.date_posted

def insertByDate (r : JobRecord) : List JobRecord → List JobRecord
  | [] => [r]
  | x :: xs => if dateLE r x then r :: x :: xs else x :: insertByDate r xs

/-- The sort of source line 427, modeled as an insertion sort on the date
key: pandas specifies the order only up to ties (its default quicksort is
not stable), and no claim depends on tie order. -/
def sortByDateDesc : List JobRecord → List JobRecord
  | [] => []
  | r :: rs => insertByDate r (sortByDateDesc rs)

/-- scrape_glassdoor_api (source lines 407-434): an empty harvest returns
an empty frame (line 418); otherwise deduplicate by job_url keeping the
first occurrence, then sort by date_posted descending. -/
def scrape_glassdoor_api (today : Int) (resp : Nat → PageResp) (max_results : Nat) :
    List JobRecord :=
  match (search_jobs today resp max_results).jobs with
  | [] => []
  | jobs => sortByDateDesc (dropDupByUrl jobs [])

inductive HarvestStatus where
  | completed
  | error
deriving DecidableEq

/-- How src/app.py surfaces a finished harvest (lines 169-224): an empty
frame raises "No jobs found ..." and the global status record ends in
error; otherwise the run completes. -/
def harvestStatus (today : Int) (resp : Nat → PageResp) (max_results : Nat) : HarvestStatus :=
  match scrape_glassdoor_api today resp max_results with
  | [] => HarvestStatus.error
  | _ => HarvestStatus.completed

/-- Upstream response to the location-suggestion GET (source line 186):
transport error, or a status code with the parsed JSON body
(body `Option.none`: response.json() raised). -/
inductive LocResp where
  | netError
  | http (status : Nat) (body : Option PyVal)

/-- get_location_id (source lines 174-214).  The returned location type
stays a PyVal because the source passes the raw JSON field through when
its code is none of "C"/"S"/"N". -/
def get_location_id (location : String) (resp : LocResp) : Int × PyVal :=
  if location = "" then (11047, PyVal.str "STATE")
  else match resp with
  | LocResp.netError => (11047, PyVal.str "STATE")
  | LocResp.http status body =>
    if status = 200 then
      match body with
      | Option.none => (11047, PyVal.str "STATE")
      | some locations =>
        if truthy locations then
          match (do
              let l0 ← pyIndex0 locations
              let lidv ← pyGetItem l0 "locationId"
              let lid ← pyint lidv
              let lt ← pyGetItem l0 "locationType"
              pure (lid, lt) : Except PyErr (Int × PyVal)) with
          | Except.error _ => (11047, PyVal.str "STATE")
          | Except.ok (lid, lt) =>
            let lt2 := if pyEq lt (PyVal.str "C") then PyVal.str "CITY"
              else if pyEq lt (PyVal.str "S") then PyVal.str "STATE"
              else if pyEq lt (PyVal.str "N") then PyVal.str "COUNTRY"
              else lt
            (lid, lt2)
        else (11047, PyVal.str "STATE")
    else (11047, PyVal.str "STATE")

/-- A raw listing of the shape the GraphQL query of source lines 57-148
produces: a jobview holding a header block and a job block.  The fields
are the ones the normalizer reads; an `Option.none` field is an absent
key. -/
structure RawParams where
  listingId : String
  title : String
  company : String
  locationName : String
  ageInDays : Option Int
  locationType : Option String
  description : String

/-- The header block of a `RawParams` listing. -/
def headerOf (p : RawParams) : PyVal :=
  PyVal.dict
    ([("employerNameFromSearch", PyVal.str p.company),
      ("locationName", PyVal.str p.locationName)]
     ++ (match p.ageInDays with
         | some n => [("ageInDays", PyVal.int n)]
         | Option.none => [])
     ++ (match p.locationType with
         | some t => [("locationType", PyVal.str t)]
         | Option.none => []))

/-- The job block of a `RawParams` listing. -/
def jobinfoOf (p : RawParams) : PyVal :=
  PyVal.dict
    [("listingId", PyVal.str p.listingId),
     ("jobTitleText", PyVal.str p.title),
     ("description", PyVal.str p.description)]

/-- The jobview block of a `RawParams` listing. -/
def jobviewOf (p : RawParams) : PyVal :=
  PyVal.dict [("header", headerOf p), ("job", jobinfoOf p)]

/-- The `PyVal` form of a `RawParams` listing. -/
def rawOf (p : RawParams) : PyVal :=
  PyVal.dict [("jobview", jobviewOf p)]

/-- The value header.get("ageInDays") yields on `headerOf`. -/
def ageValOf (p : RawParams) : PyVal :=
  match p.ageInDays with
  | some n => PyVal.int n
  | Option.none => PyVal.none

/-- The value header.get("locationType") yields on `headerOf`. -/
def ltValOf (p : RawParams) : PyVal :=
  match p.locationType with
  | some t => PyVal.str t
  | Option.none => PyVal.none

/-- The city the normalizer derives from the location string. -/
def cityOf (p : RawParams) : String :=
  if p.locationName = "" ∨ p.locationName = "Remote" then ""
  else (pySplit p.locationName ", ").headD ""

/-- The state the normalizer derives from the location string. -/
def stateOf (p : RawParams) : String :=
  if p.locationName = "" ∨ p.locationName = "Remote" then ""
  else ((pySplit p.locationName ", ").drop 1).headD ""

/-- The record process_job produces for a `rawOf` listing with a
non-empty listing id (established by `processJob_rawOf`). -/
def recordOf (today : Int) (p : RawParams) : JobRecord :=
  { id := "glassdoor_" ++ p.listingId
  , title := PyVal.str p.title
  , company := PyVal.str p.company
  , location := PyVal.str p.locationName
  , city := cityOf p
  , state := stateOf p
  , job_url := "https://www.glassdoor.com/job-listing/j?jl=" ++ p.listingId
  , company_url := Option.none
  , company_logo := PyVal.none
  , salary_min := Option.none
  , salary_max := Option.none
  , currency := PyVal.str "USD"
  , date_posted := p.ageInDays.map (fun n => today - n)
  , source := "glassdoor"
  , description := PyVal.str p.description
  , age_days := ageValOf p
  , easy_apply := PyVal.bool false
  , remote := pyEq (PyVal.str p.locationName) (PyVal.str "Remote")
      || pyEq (ltValOf p) (PyVal.str "S") }


theorem ebind_ok {α β : Type} (a : α) (f : α → Except PyErr β) :
    (Except.ok a : Except PyErr α) >>= f = f a := rfl

theorem ebind_err {α β : Type} (e : PyErr) (f : α → Except PyErr β) :
    (Except.error e : Except PyErr α) >>= f = Except.error e := rfl

theorem epure_eq_ok {α : Type} (a : α) : (pure a : Except PyErr α) = Except.ok a := rfl

/-- Shape of the blocks extracted from a `rawOf` listing. -/
theorem extractBlocks_rawOf (p : RawParams) :
    extractBlocks (rawOf p) = Except.ok (some (jobviewOf p, headerOf p, jobinfoOf p)) := rfl

theorem pyGet_job_listing (p : RawParams) :
    pyGet (jobinfoOf p) "listingId" PyVal.none = Except.ok (PyVal.str p.listingId) := rfl

theorem pyGet_job_desc (p : RawParams) :
    pyGet (jobinfoOf p) "description" (PyVal.str "") = Except.ok (PyVal.str p.description) := rfl

theorem pyGet_header_company (p : RawParams) :
    pyGet (headerOf p) "employerNameFromSearch" (PyVal.str "")
      = Except.ok (PyVal.str p.company) := rfl

theorem pyGet_header_location (p : RawParams) :
    pyGet (headerOf p) "locationName" (PyVal.str "") = Except.ok (PyVal.str p.locationName) := rfl

theorem pyGet_header_age (p : RawParams) :
    pyGet (headerOf p) "ageInDays" PyVal.none = Except.ok (ageValOf p) := by
  obtain ⟨lid, ti, co, ln, age, lt, de⟩ := p
  rcases age with _ | n <;> rcases lt with _ | t <;> rfl

theorem pyGet_header_lt (p : RawParams) :
    pyGet (headerOf p) "locationType" PyVal.none = Except.ok (ltValOf p) := by
  obtain ⟨lid, ti, co, ln, age, lt, de⟩ := p
  rcases age with _ | n <;> rcases lt with _ | t <;> rfl

theorem pyGet_header_easy (p : RawParams) :
    pyGet (headerOf p) "easyApply" (PyVal.bool false) = Except.ok (PyVal.bool false) := by
  obtain ⟨lid, ti, co, ln, age, lt, de⟩ := p
  rcases age with _ | n <;> rcases lt with _ | t <;> rfl

theorem salariesOf_header (p : RawParams) :
    salariesOf (headerOf p)
      = Except.ok ((Option.none : Option Int), (Option.none : Option Int), PyVal.str "USD") := by
  obtain ⟨lid, ti, co, ln, age, lt, de⟩ := p
  rcases age with _ | n <;> rcases lt with _ | t <;> rfl

theorem companyUrlOf_header (p : RawParams) :
    companyUrlOf (headerOf p) = Except.ok (Option.none : Option String) := by
  obtain ⟨lid, ti, co, ln, age, lt, de⟩ := p
  rcases age with _ | n <;> rcases lt with _ | t <;> rfl

theorem logoOf_jobview (p : RawParams) :
    logoOf (jobviewOf p) = Except.ok PyVal.none := by
  obtain ⟨lid, ti, co, ln, age, lt, de⟩ := p
  rcases age with _ | n <;> rcases lt with _ | t <;> rfl

theorem titleOf_rawOf (p : RawParams) :
    titleOf (headerOf p) (jobinfoOf p) = Except.ok (PyVal.str p.title) := by
  obtain ⟨lid, ti, co, ln, age, lt, de⟩ := p
  by_cases hti : ti = ""
  · subst hti
    rcases age with _ | n <;> rcases lt with _ | t <;> rfl
  · simp [titleOf, pyGetItem, jobinfoOf, PyVal.lookupKey, truthy, hti,
      ebind_ok, epure_eq_ok]

theorem datePostedOf_age (today : Int) (p : RawParams) :
    datePostedOf today (ageValOf p)
      = Except.ok (p.ageInDays.map (fun n => today - n)) := by
  obtain ⟨lid, ti, co, ln, age, lt, de⟩ := p
  rcases age with _ | n <;> rfl

theorem cityStateOf_loc (p : RawParams) :
    cityStateOf (PyVal.str p.locationName) = Except.ok (cityOf p, stateOf p) := by
  obtain ⟨lid, ti, co, ln, age, lt, de⟩ := p
  by_cases h1 : ln = "" <;> by_cases h2 : ln = "Remote" <;>
    simp_all [cityStateOf, cityOf, stateOf, truthy, pyEq]

theorem ite_not_true {α : Sort u} (a b : α) : (if (!true) = true then a else b) = b := rfl

theorem ite_not_false {α : Sort u} (a b : α) : (if (!false) = true then a else b) = a := rfl

/-- On a well-shaped raw listing with a non-empty listing id, process_job
produces exactly the record described by `recordOf`. -/
theorem processJob_rawOf (today : Int) (p : RawParams) (h : p.listingId ≠ "") :
    processJob today (rawOf p) = some (recordOf today p) := by
  have hid : truthy (PyVal.str p.listingId) = true := by simp [truthy, h]
  simp only [processJob, processJobE, extractBlocks_rawOf, ebind_ok, epure_eq_ok,
    pyGet_job_listing, hid, ite_not_true, ite_not_false,
    titleOf_rawOf, pyGet_header_company, pyGet_header_location,
    pyGet_header_age, datePostedOf_age, cityStateOf_loc,
    salariesOf_header, companyUrlOf_header, logoOf_jobview, pyGet_job_desc,
    pyGet_header_easy, pyGet_header_lt, pystr, recordOf]

/-! ### Properties of the dedup pass -/

/-- `r` occurs in `l` as the first record carrying its job_url: everything
before it has a different url. -/
def firstOccIn (l : List JobRecord) (r : JobRecord) : Prop :=
  ∃ l1 l2, l = l1 ++ r :: l2 ∧ ∀ x ∈ l1, x.job_url ≠ r.job_url

theorem dropDupByUrl_notSeen :
    ∀ (l : List JobRecord) (seen : List String) (r : JobRecord),
      r ∈ dropDupByUrl l seen → r.job_url ∉ seen := by
  intro l
  induction l with
  | nil => intro seen r hr; simp [dropDupByUrl] at hr
  | cons r0 rs ih =>
    intro seen r hr
    by_cases hs : r0.job_url ∈ seen
    · rw [dropDupByUrl, if_pos hs] at hr
      exact ih seen r hr
    · rw [dropDupByUrl, if_neg hs] at hr
      rcases List.mem_cons.mp hr with h | h
      · subst h; exact hs
      · have := ih (r0.job_url :: seen) r h
        intro hmem
        exact this (List.mem_cons_of_mem _ hmem)

theorem dropDupByUrl_pairwise :
    ∀ (l : List JobRecord) (seen : List String),
      List.Pairwise (fun a b => a.job_url ≠ b.job_url) (dropDupByUrl l seen) := by
  intro l
  induction l with
  | nil => intro seen; simp [dropDupByUrl]
  | cons r0 rs ih =>
    intro seen
    by_cases hs : r0.job_url ∈ seen
    · rw [dropDupByUrl, if_pos hs]; exact ih seen
    · rw [dropDupByUrl, if_neg hs]
      refine List.Pairwise.cons ?_ (ih _)
      intro b hb
      have := dropDupByUrl_notSeen rs (r0.job_url :: seen) b hb
      intro hequrl
      exact this (hequrl ▸ List.mem_cons_self _ _)

theorem dropDupByUrl_length :
    ∀ (l : List JobRecord) (seen : List String),
      (dropDupByUrl l seen).length ≤ l.length := by
  intro l
  induction l with
  | nil => intro seen; simp [dropDupByUrl]
  | cons r0 rs ih =>
    intro seen
    by_cases hs : r0.job_url ∈ seen
    · rw [dropDupByUrl, if_pos hs]
      exact Nat.le_succ_of_le (ih seen)
    · rw [dropDupByUrl, if_neg hs]
      simpa using Nat.succ_le_succ (ih (r0.job_url :: seen))

theorem dropDupByUrl_first :
    ∀ (l : List JobRecord) (seen : List String) (r : JobRecord),
      r ∈ dropDupByUrl l seen → firstOccIn l r := by
  intro l
  induction l with
  | nil => intro seen r hr; simp [dropDupByUrl] at hr
  | cons r0 rs ih =>
    intro seen r hr
    by_cases hs : r0.job_url ∈ seen
    · rw [dropDupByUrl, if_pos hs] at hr
      have hnot := dropDupByUrl_notSeen rs seen r hr
      obtain ⟨l1, l2, heq, hpre⟩ := ih seen r hr
      refine ⟨r0 :: l1, l2, by rw [heq, List.cons_append], ?_⟩
      intro x hx
      rcases List.mem_cons.mp hx with h | h
      · subst h
        intro hu
        exact hnot (hu ▸ hs)
      · exact hpre x h
    · rw [dropDupByUrl, if_neg hs] at hr
      rcases List.mem_cons.mp hr with h | h
      · subst h
        exact ⟨[], rs, rfl, by intro x hx; simp at hx⟩
      · have hnot := dropDupByUrl_notSeen rs (r0.job_url :: seen) r h
        obtain ⟨l1, l2, heq, hpre⟩ := ih _ r h
        refine ⟨r0 :: l1, l2, by rw [heq, List.cons_append], ?_⟩
        intro x hx
        rcases List.mem_cons.mp hx with h2 | h2
        · subst h2
          intro hu
          exact hnot (hu ▸ List.mem_cons_self _ _)
        · exact hpre x h2

theorem dropDupByUrl_covers :
    ∀ (l : List JobRecord) (seen : List String) (s : JobRecord),
      s ∈ l → s.job_url ∉ seen →
      ∃ r ∈ dropDupByUrl l seen, r.job_url = s.job_url := by
  intro l
  induction l with
  | nil => intro seen s hs; simp at hs
  | cons r0 rs ih =>
    intro seen s hs hnot
    by_cases h0 : r0.job_url ∈ seen
    · rw [dropDupByUrl, if_pos h0]
      rcases List.mem_cons.mp hs with h | h
      · exact absurd (h ▸ hnot) (by simp [h0])
      · exact ih seen s h hnot
    · rw [dropDupByUrl, if_neg h0]
      rcases List.mem_cons.mp hs with h | h
      · exact ⟨r0, List.mem_cons_self _ _, by rw [h]⟩
      · by_cases hu : s.job_url = r0.job_url
        · exact ⟨r0, List.mem_cons_self _ _, hu.symm⟩
        · have hnot2 : s.job_url ∉ r0.job_url :: seen := by
            intro hmem
            rcases List.mem_cons.mp hmem with h2 | h2
            · exact hu h2
            · exact hnot h2
          obtain ⟨r, hr, hru⟩ := ih (r0.job_url :: seen) s h hnot2
          exact ⟨r, List.mem_cons_of_mem _ hr, hru⟩

/-! ### Properties of the date sort -/

theorem dateKeyLE_total (a b : Option Int) : dateKeyLE a b = true ∨ dateKeyLE b a = true := by
  rcases a with _ | x <;> rcases b with _ | y <;> simp [dateKeyLE]
  omega

theorem dateKeyLE_trans {a b c : Option Int} (h1 : dateKeyLE a b = true)
    (h2 : dateKeyLE b c = true) : dateKeyLE a c = true := by
  rcases a with _ | x <;> rcases b with _ | y <;> rcases c with _ | z <;>
    simp_all [dateKeyLE]
  omega

theorem insertByDate_perm (r : JobRecord) (l : List JobRecord) :
    (insertByDate r l).Perm (r :: l) := by
  induction l with
  | nil => simp [insertByDate]
  | cons x xs ih =>
    rw [insertByDate]
    by_cases h : dateLE r x
    · rw [if_pos h]
    · rw [if_neg h]
      exact (ih.cons x).trans (List.Perm.swap r x xs)

theorem sortByDateDesc_perm (l : List JobRecord) : (sortByDateDesc l).Perm l := by
  induction l with
  | nil => simp [sortByDateDesc]
  | cons x xs ih =>
    rw [sortByDateDesc]
    exact (insertByDate_perm x (sortByDateDesc xs)).trans (ih.cons x)

theorem mem_insertByDate {y r : JobRecord} {l : List JobRecord}
    (h : y ∈ insertByDate r l) : y = r ∨ y ∈ l := by
  have := (insertByDate_perm r l).mem_iff.mp h
  simpa using this

theorem pairwise_insertByDate (r : JobRecord) (l : List JobRecord)
    (h : List.Pairwise (fun a b => dateLE a b = true) l) :
    List.Pairwise (fun a b => dateLE a b = true) (insertByDate r l) := by
  induction l with
  | nil => simp [insertByDate]
  | cons x xs ih =>
    rcases h with _ | ⟨hx, hxs⟩
    rw [insertByDate]
    by_cases hrx : dateLE r x
    · rw [if_pos hrx]
      refine List.Pairwise.cons ?_ (List.Pairwise.cons hx hxs)
      intro b hb
      rcases List.mem_cons.mp hb with h2 | h2
      · subst h2; exact hrx
      · exact dateKeyLE_trans hrx (hx b h2)
    · rw [if_neg hrx]
      have hxr : dateLE x r = true := by
        rcases dateKeyLE_total r.date_posted x.date_posted with h2 | h2
        · exact absurd h2 hrx
        · exact h2
      refine List.Pairwise.cons ?_ (ih hxs)
      intro b hb
      rcases mem_insertByDate hb with h2 | h2
      · subst h2; exact hxr
      · exact hx b h2

theorem sortByDateDesc_pairwise (l : List JobRecord) :
    List.Pairwise (fun a b => dateLE a b = true) (sortByDateDesc l) := by
  induction l with
  | nil => simp [sortByDateDesc]
  | cons x xs ih =>
    rw [sortByDateDesc]
    exact pairwise_insertByDate x _ ih

/-! ### Properties of the pagination loop -/

theorem loopAux_reqs (today : Int) (resp : Nat → PageResp) (maxR : Nat) :
    ∀ (fuel page : Nat) (acc : List JobRecord),
      (∀ pr ∈ (loopAux today resp maxR fuel page acc).reqs,
          page ≤ pr.1 ∧ pr.1 < page + fuel ∧ pr.2 < maxR)
      ∧ (loopAux today resp maxR fuel page acc).reqs.length ≤ fuel
      ∧ (loopAux today resp maxR fuel page acc).reqs.map Prod.fst
          = List.range' page (loopAux today resp maxR fuel page acc).reqs.length := by
  intro fuel
  induction fuel with
  | zero => intro page acc; simp [loopAux]
  | succ fuel ih =>
    intro page acc
    by_cases hlt : acc.length < maxR
    · cases hstep : pageStep today page (resp page) with
      | fault =>
        simp only [loopAux, if_pos hlt, hstep]
        refine ⟨?_, by simp, by simp [List.range']⟩
        intro pr hpr
        simp at hpr
        subst hpr
        exact ⟨Nat.le_refl _, by omega, hlt⟩
      | endOfResults =>
        simp only [loopAux, if_pos hlt, hstep]
        refine ⟨?_, by simp, by simp [List.range']⟩
        intro pr hpr
        simp at hpr
        subst hpr
        exact ⟨Nat.le_refl _, by omega, hlt⟩
      | cursorFault jobs =>
        simp only [loopAux, if_pos hlt, hstep]
        refine ⟨?_, by simp, by simp [List.range']⟩
        intro pr hpr
        simp at hpr
        subst hpr
        exact ⟨Nat.le_refl _, by omega, hlt⟩
      | lastPage jobs =>
        simp only [loopAux, if_pos hlt, hstep]
        refine ⟨?_, by simp, by simp [List.range']⟩
        intro pr hpr
        simp at hpr
        subst hpr
        exact ⟨Nat.le_refl _, by omega, hlt⟩
      | next jobs =>
        simp only [loopAux, if_pos hlt, hstep]
        obtain ⟨ih1, ih2, ih3⟩ := ih (page + 1) (acc ++ jobs)
        refine ⟨?_, by simpa using Nat.succ_le_succ ih2, ?_⟩
        · intro pr hpr
          rcases List.mem_cons.mp hpr with h | h
          · subst h
            exact ⟨Nat.le_refl _, by omega, hlt⟩
          · obtain ⟨ha, hb, hc⟩ := ih1 pr h
            exact ⟨by omega, by omega, hc⟩
        · simp only [List.map_cons, List.length_cons, List.range'_succ]
          rw [ih3]
    · simp [loopAux, if_neg hlt]

/-- C3: every POST the harvester issues goes to a page number at most
min(30, maxResults/30 + 2), is issued only while fewer than maxResults
records are accumulated, the pages are consecutive from 1, and no
harvest requests more than 30 pages. -/
theorem c3_page_bounds (today : Int) (resp : Nat → PageResp) (maxR : Nat) :
    (∀ pr ∈ (search_jobs today resp maxR).reqs,
        pr.1 ≤ min 30 (maxR / 30 + 2) ∧ pr.2 < maxR)
    ∧ (search_jobs today resp maxR).reqs.map Prod.fst
        = List.range' 1 (search_jobs today resp maxR).reqs.length
    ∧ (search_jobs today resp maxR).reqs.length ≤ 30 := by
  obtain ⟨h1, h2, h3⟩ := loopAux_reqs today resp maxR (min 30 (maxR / 30 + 2)) 1 []
  have hreqs : (search_jobs today resp maxR).reqs
      = (loopAux today resp maxR (min 30 (maxR / 30 + 2)) 1 []).reqs := rfl
  refine ⟨?_, ?_, ?_⟩
  · intro pr hpr
    rw [hreqs] at hpr
    obtain ⟨ha, hb, hc⟩ := h1 pr hpr
    exact ⟨by omega, hc⟩
  · rw [hreqs]
    exact h3
  · rw [hreqs]
    exact h2.trans (by omega)

/-- C4: with maxResults = 0 the harvester issues no page request, returns
the empty result, and reports no pagination fault. -/
theorem c4_zero_max_results (today : Int) (resp : Nat → PageResp) :
    search_jobs today resp 0 = ⟨[], [], false⟩
    ∧ scrape_glassdoor_api today resp 0 = [] := ⟨rfl, rfl⟩

/-- C8: a non-200 response, a malformed or absent payload, or a transport
error at the current page stops the loop at once, returning exactly the
records accumulated so far; and a finished harvest is surfaced as a
failure exactly when its result is empty. -/
theorem c8_fault_handling (today : Int) (resp : Nat → PageResp) (maxR fuel page : Nat)
    (acc : List JobRecord) (hf : pageStep today page (resp page) = PageOutcome.fault)
    (hlt : acc.length < maxR) :
    loopAux today resp maxR (fuel + 1) page acc = ⟨acc, [(page, acc.length)], true⟩
    ∧ (∀ (t : Int) (r : Nat → PageResp) (m : Nat),
        harvestStatus t r m = HarvestStatus.error ↔ scrape_glassdoor_api t r m = []) := by
  constructor
  · simp [loopAux, if_pos hlt, hf]
  · intro t r m
    unfold harvestStatus
    cases hs : scrape_glassdoor_api t r m with
    | nil => simp
    | cons a as => simp

/-- C1: a completed harvest contains no two records with the same
job_url; its length is at most the requested maxResults; every record it
contains is the first-encountered record with its url in the harvested
sequence; and every harvested url is still represented. -/
theorem c1_harvest_dedup_cap (today : Int) (resp : Nat → PageResp) (maxR : Nat) :
    List.Pairwise (fun a b => a.job_url ≠ b.job_url) (scrape_glassdoor_api today resp maxR)
    ∧ (scrape_glassdoor_api today resp maxR).length ≤ maxR
    ∧ (∀ r ∈ scrape_glassdoor_api today resp maxR,
        firstOccIn (search_jobs today resp maxR).jobs r)
    ∧ (∀ s ∈ (search_jobs today resp maxR).jobs,
        ∃ r ∈ scrape_glassdoor_api today resp maxR, r.job_url = s.job_url) := by
  have hlenraw : (search_jobs today resp maxR).jobs.length ≤ maxR := by
    simp [search_jobs]
  cases hj : (search_jobs today resp maxR).jobs with
  | nil =>
    have hscr : scrape_glassdoor_api today resp maxR = [] := by
      simp [scrape_glassdoor_api, hj]
    rw [hscr]
    simp
  | cons a as =>
    have hscr : scrape_glassdoor_api today resp maxR
        = sortByDateDesc (dropDupByUrl (a :: as) []) := by
      simp [scrape_glassdoor_api, hj]
    have hperm := sortByDateDesc_perm (dropDupByUrl (a :: as) [])
    refine ⟨?_, ?_, ?_, ?_⟩
    · rw [hscr]
      exact (hperm.pairwise_iff (fun h => Ne.symm h)).mpr (dropDupByUrl_pairwise (a :: as) [])
    · rw [hscr, hperm.length_eq]
      calc (dropDupByUrl (a :: as) []).length ≤ (a :: as).length :=
            dropDupByUrl_length (a :: as) []
        _ ≤ maxR := hj ▸ hlenraw
    · intro r hr
      rw [hscr] at hr
      exact dropDupByUrl_first (a :: as) [] r (hperm.mem_iff.mp hr)
    · intro s hs
      obtain ⟨r, hr, hu⟩ := dropDupByUrl_covers (a :: as) [] s hs (by simp)
      exact ⟨r, by rw [hscr]; exact hperm.mem_iff.mpr hr, hu⟩

/-- C2: a completed harvest is ordered non-increasing by date_posted,
with records lacking a date after all dated records. -/
theorem c2_sorted_by_date (today : Int) (resp : Nat → PageResp) (maxR : Nat) :
    List.Pairwise (fun a b => dateKeyLE a.date_posted b.date_posted = true)
      (scrape_glassdoor_api today resp maxR) := by
  cases hj : (search_jobs today resp maxR).jobs with
  | nil => simp [scrape_glassdoor_api, hj]
  | cons a as =>
    have := sortByDateDesc_pairwise (dropDupByUrl (a :: as) [])
    simpa [scrape_glassdoor_api, hj, dateLE] using this

/-! ### Normalizer and resolver claims -/

theorem pySplit_empty : pySplit "" ", " = [""] := rfl

/-- C5 (counterexample): on location "Springfield, IL, USA" the
normalizer sets state to "IL", the second comma-space-separated field,
not "IL, USA", the text after the first comma-space ("Springfield"
itself contains no comma-space, so the first one is the displayed
one). -/
theorem c5_counterexample :
    ((processJob 0 (rawOf
        ⟨"42", "Dev", "Acme", "Springfield, IL, USA", Option.none, Option.none, "d"⟩)).map
      (fun r => r.state) = some "IL")
    ∧ "Springfield, IL, USA" = "Springfield" ++ ", " ++ "IL, USA"
    ∧ strContains "Springfield" ", " = false
    ∧ "IL" ≠ "IL, USA" :=
  ⟨rfl, rfl, rfl, by decide⟩

/-- C5 (amended): location "Remote" gives empty city/state and
remote = true; otherwise city is the first field of splitting the
location on ", " (the text before the first comma-space) and state is
the second field of that split (the text between the first and second
comma-space; empty when no comma-space occurs). -/
theorem c5_location_parsing (today : Int) (p : RawParams) (hid : p.listingId ≠ "") :
    (p.locationName = "Remote" →
      ∃ r, processJob today (rawOf p) = some r
        ∧ r.city = "" ∧ r.state = "" ∧ r.remote = true)
    ∧ (p.locationName ≠ "Remote" →
      ∃ r, processJob today (rawOf p) = some r
        ∧ r.city = (pySplit p.locationName ", ").headD ""
        ∧ r.state = ((pySplit p.locationName ", ").drop 1).headD "") := by
  constructor
  · intro hrem
    refine ⟨recordOf today p, processJob_rawOf today p hid, ?_, ?_, ?_⟩
    · simp [recordOf, cityOf, hrem]
    · simp [recordOf, stateOf, hrem]
    · simp [recordOf, pyEq, hrem]
  · intro hrem
    refine ⟨recordOf today p, processJob_rawOf today p hid, ?_, ?_⟩
    · by_cases hln : p.locationName = ""
      · simp [recordOf, cityOf, hln, hrem, pySplit_empty]
      · simp [recordOf, cityOf, hln, hrem]
    · by_cases hln : p.locationName = ""
      · simp [recordOf, stateOf, hln, hrem, pySplit_empty]
      · simp [recordOf, stateOf, hln, hrem]

theorem c5_location_parsing_witness :
    ∃ r, processJob 0 (rawOf ⟨"9", "T", "A", "Remote", Option.none, Option.none, "d"⟩) = some r
      ∧ r.city = "" ∧ r.state = "" ∧ r.remote = true :=
  (c5_location_parsing 0 ⟨"9", "T", "A", "Remote", Option.none, Option.none, "d"⟩
    (by decide)).1 rfl

/-- C6: a listing whose header carries an integer ageInDays (0 included)
is normalized with date_posted = today - ageInDays; an absent ageInDays
leaves date_posted null. -/
theorem c6_date_posted (today : Int) (p : RawParams) (hid : p.listingId ≠ "") :
    (∀ n : Int, p.ageInDays = some n →
      ∃ r, processJob today (rawOf p) = some r ∧ r.date_posted = some (today - n))
    ∧ (p.ageInDays = Option.none →
      ∃ r, processJob today (rawOf p) = some r ∧ r.date_posted = Option.none) := by
  constructor
  · intro n hn
    exact ⟨recordOf today p, processJob_rawOf today p hid, by simp [recordOf, hn]⟩
  · intro hn
    exact ⟨recordOf today p, processJob_rawOf today p hid, by simp [recordOf, hn]⟩

theorem c6_date_posted_witness :
    ∃ r, processJob 100 (rawOf ⟨"1", "T", "A", "X", some 5, Option.none, "d"⟩) = some r
      ∧ r.date_posted = some (100 - 5) :=
  (c6_date_posted 100 ⟨"1", "T", "A", "X", some 5, Option.none, "d"⟩ (by decide)).1 5 rfl

/-- C7: the location resolver answers the fixed default (11047, STATE)
on empty input, on a transport error, on a non-200 status, on an
unparseable body, and on a lookup that returns no suggestions. -/
theorem c7_location_fallback (location : String) (resp : LocResp)
    (h : location = "" ∨ resp = LocResp.netError
      ∨ (∃ s b, resp = LocResp.http s b ∧ s ≠ 200)
      ∨ resp = LocResp.http 200 Option.none
      ∨ resp = LocResp.http 200 (some (PyVal.list []))) :
    get_location_id location resp = (11047, PyVal.str "STATE") := by
  rcases h with h | h | ⟨s, b, rfl, hs⟩ | h | h
  · simp [get_location_id, h]
  · subst h
    by_cases hl : location = "" <;> simp [get_location_id, hl]
  · by_cases hl : location = "" <;> simp [get_location_id, hl, hs]
  · subst h
    by_cases hl : location = "" <;> simp [get_location_id, hl]
  · subst h
    by_cases hl : location = "" <;> simp [get_location_id, hl, truthy]

theorem c7_location_fallback_witness :
    get_location_id "nowhere land" (LocResp.http 200 (some (PyVal.list [])))
      = (11047, PyVal.str "STATE") :=
  c7_location_fallback "nowhere land" (LocResp.http 200 (some (PyVal.list [])))
    (Or.inr (Or.inr (Or.inr (Or.inr rfl))))

/-- C9: a listing whose job block lacks a non-empty (truthy) listingId is
skipped: process_job returns None, never a partially-filled record. -/
theorem c9_missing_listing_id (today : Int) (hd jb : List (String × PyVal))
    (h : ∀ v, PyVal.lookupKey jb "listingId" = some v → truthy v = false) :
    processJob today (PyVal.dict [("jobview",
      PyVal.dict [("header", PyVal.dict hd), ("job", PyVal.dict jb)])]) = Option.none := by
  have hex : extractBlocks (PyVal.dict [("jobview",
      PyVal.dict [("header", PyVal.dict hd), ("job", PyVal.dict jb)])])
      = Except.ok (some (PyVal.dict [("header", PyVal.dict hd), ("job", PyVal.dict jb)],
          PyVal.dict hd, PyVal.dict jb)) := rfl
  cases hlk : PyVal.lookupKey jb "listingId" with
  | none =>
    simp only [processJob, processJobE, hex, ebind_ok, pyGet, hlk, Option.getD,
      truthy, ite_not_false, epure_eq_ok]
  | some v =>
    have hv := h v hlk
    simp only [processJob, processJobE, hex, ebind_ok, pyGet, hlk, Option.getD,
      hv, ite_not_false, epure_eq_ok]

theorem c9_missing_listing_id_witness :
    processJob 0 (PyVal.dict [("jobview", PyVal.dict
      [("header", PyVal.dict []), ("job", PyVal.dict [])])]) = Option.none :=
  c9_missing_listing_id 0 [] [] (by intro v hv; simp [PyVal.lookupKey] at hv)

/-- C10: process_job is total at its interface: on every input value it
returns either a record or None, and every exception the body raises is
caught and converted into a skip. -/
theorem c10_process_job_total (today : Int) (jd : PyVal) :
    ((∃ r, processJob today jd = some r) ∨ processJob today jd = Option.none)
    ∧ (∀ e, processJobE today jd = Except.error e → processJob today jd = Option.none) := by
  constructor
  · cases h : processJob today jd with
    | none => exact Or.inr rfl
    | some r => exact Or.inl ⟨r, rfl⟩
  · intro e he
    simp [processJob, he]

theorem c10_process_job_total_witness :
    processJobE 0 (PyVal.int 5) = Except.error PyErr.typeError
    ∧ processJob 0 (PyVal.int 5) = Option.none :=
  ⟨rfl, (c10_process_job_total 0 (PyVal.int 5)).2 PyErr.typeError rfl⟩

/-! ### Concrete harvest runs used as witnesses -/

/-- A well-formed sample listing. -/
def sampleParams : RawParams :=
  ⟨"7", "Engineer", "Acme", "Boston, MA", some 3, Option.none, "great job"⟩

/-- A well-formed one-listing page payload with no further cursor. -/
def sampleBody : PyVal :=
  PyVal.list [PyVal.dict [("data", PyVal.dict [("jobListings", PyVal.dict
    [("jobListings", PyVal.list [rawOf sampleParams]),
     ("paginationCursors", PyVal.list []),
     ("totalJobsCount", PyVal.int 1)])])]]

/-- An oracle that always answers with the sample page. -/
def sampleResp : Nat → PageResp := fun _ => PageResp.http 200 (some sampleBody)

/-- An oracle that always fails with HTTP 500. -/
def resp500 : Nat → PageResp := fun _ => PageResp.http 500 Option.none

theorem c1_harvest_dedup_cap_witness :
    recordOf 10 sampleParams ∈ scrape_glassdoor_api 10 sampleResp 5
    ∧ firstOccIn (search_jobs 10 sampleResp 5).jobs (recordOf 10 sampleParams) := by
  have hm : recordOf 10 sampleParams ∈ scrape_glassdoor_api 10 sampleResp 5 := by
    have hs : scrape_glassdoor_api 10 sampleResp 5 = [recordOf 10 sampleParams] := rfl
    rw [hs]
    exact List.mem_singleton.mpr rfl
  exact ⟨hm, (c1_harvest_dedup_cap 10 sampleResp 5).2.2.1 _ hm⟩

theorem c3_page_bounds_witness :
    (1, 0) ∈ (search_jobs 0 resp500 100).reqs
    ∧ 1 ≤ min 30 (100 / 30 + 2) ∧ 0 < 100
    ∧ (search_jobs 0 resp500 100).reqs.length ≤ 30 := by
  have hm : (1, 0) ∈ (search_jobs 0 resp500 100).reqs := by
    have hs : (search_jobs 0 resp500 100).reqs = [(1, 0)] := rfl
    rw [hs]
    exact List.mem_singleton.mpr rfl
  obtain ⟨ha, hb⟩ := (c3_page_bounds 0 resp500 100).1 (1, 0) hm
  exact ⟨hm, ha, hb, (c3_page_bounds 0 resp500 100).2.2⟩

theorem c8_fault_handling_witness :
    loopAux 0 resp500 1 1 1 [] = ⟨[], [(1, 0)], true⟩
    ∧ (harvestStatus 0 resp500 1 = HarvestStatus.error ↔ scrape_glassdoor_api 0 resp500 1 = []) := by
  have h := c8_fault_handling 0 resp500 1 0 1 [] rfl (by decide)
  exact ⟨h.1, h.2 0 resp500 1⟩

end Glassdoor
